import Mathlib

/-!
Shallow embedding of `rs-sysctl-typed-cpu` (src/src/lib.rs): a typed snapshot
of CPU information assembled from a sysctl-style registry.  The external
registry collaborator is modelled as a pair of response functions; the
library's value resolver, record builders and performance-level discovery
loop are translated as pure functions of that registry.
-/

namespace SysctlCpu

/-! ### Decimal rendering

Models the decimal formatting used by Rust's `format!("hw.perflevel{id}")`
(`Display` for `i32`), with the same fueled digit-extraction structure as
Lean core's `Nat.toDigits`. -/

/-- Characters `'0'`-`'9'` interpreted as a value; other inputs are unused. -/
def digitVal (c : Char) : Nat := c.toNat - 48

/-- Value of a big-endian list of decimal digit characters. -/
def digitsVal (l : List Char) : Nat := l.foldl (fun a c => a * 10 + digitVal c) 0

/-- Fueled big-endian decimal digit extraction (structure of `Nat.toDigits`). -/
def natDigitsCore : Nat → Nat → List Char
  | 0, _ => []
  | fuel + 1, n =>
    if n < 10 then [Nat.digitChar n]
    else natDigitsCore fuel (n / 10) ++ [Nat.digitChar (n % 10)]

/-- Decimal rendering of a natural number, as Rust renders a nonnegative
integer. -/
def natDecimal (n : Nat) : String := ⟨natDigitsCore (n + 1) n⟩

/-- Decimal rendering of an integer, as Rust's `Display` for `i32`. -/
def intDecimal : Int → String
  | Int.ofNat n => natDecimal n
  | Int.negSucc n => "-" ++ natDecimal (n + 1)

/-! ### The registry collaborator and the value resolver -/

/-- The external sysctl registry collaborator: `ctlNew k` is whether
`Ctl::new(k)` succeeds (the key exists), `valueString k` is the outcome of
`ctl.value_string()` on that key (`none` when the read fails). -/
structure Registry where
  ctlNew : String → Bool
  valueString : String → Option String

/-- `Ctl::new(key).ok()`: the handle is identified with its key. -/
def ctlNewOpt (reg : Registry) (key : String) : Option String :=
  if reg.ctlNew key then some key else none

/-- `get_sysctl_value::<T>(key)`: open the key, read its textual value,
parse it as `T`; on any failure return the default.  The scalar type is
supplied through its parse function and its default value. -/
def get_sysctl_value {T : Type} (parse : String → Option T) (dflt : T)
    (reg : Registry) (key : String) : T :=
  ((((ctlNewOpt reg key).bind (fun ctl => reg.valueString ctl)).bind
    (fun s => parse s)).getD dflt)

/-! ### Rust scalar parsing (`str::parse`) -/

/-- All-digit nonempty strings parse to their value (`from_str_radix`,
radix 10), otherwise `none`. -/
def parseDigits (l : List Char) : Option Nat :=
  if l = [] then none
  else if l.all Char.isDigit then some (digitsVal l) else none

/-- Rust's `FromStr` for a bounded signed integer type: optional sign, a
nonempty run of decimal digits, and a bounds check. -/
def parseRustInt (lo hi : Int) (s : String) : Option Int :=
  match s.data with
  | [] => none
  | c :: cs =>
    let signDigits : Bool × List Char :=
      if c = '-' then (true, cs)
      else if c = '+' then (false, cs)
      else (false, c :: cs)
    match parseDigits signDigits.2 with
    | none => none
    | some n =>
      let v : Int := if signDigits.1 then -(n : Int) else (n : Int)
      if lo ≤ v ∧ v ≤ hi then some v else none

/-- `str::parse::<i32>`. -/
def parse_i32 : String → Option Int := parseRustInt (-2147483648) 2147483647

/-- `str::parse::<i64>` (the `Long` scalar of the library). -/
def parse_i64 : String → Option Int :=
  parseRustInt (-9223372036854775808) 9223372036854775807

/-- `str::parse::<String>`: infallible identity. -/
def parse_string (s : String) : Option String := some s

/-! ### Records -/

/-- `CPUIdentification`. -/
structure CPUIdentification where
  brand_string : String
  vendor : String
  feature_bits : String
deriving DecidableEq, Repr

/-- `CPUCoreCounts` (fields are `i32`). -/
structure CPUCoreCounts where
  physical : Int
  logical : Int
  max_physical : Int
  max_logical : Int
deriving DecidableEq, Repr

/-- `CPUFrequency` (field is `i64`). -/
structure CPUFrequency where
  hz : Int
deriving DecidableEq, Repr

/-- `CacheInfo` (fields are `i64`). -/
structure CacheInfo where
  l1_instruction_bytes : Int
  l1_data_bytes : Int
  l2_bytes : Int
  l3_bytes : Int
deriving DecidableEq, Repr

/-- `CacheSharing` (fields are `i32`). -/
structure CacheSharing where
  cores_per_l2 : Int
  cores_per_l3 : Int
deriving DecidableEq, Repr

/-- `PerformanceLevel` (`id` is `i32`). -/
structure PerformanceLevel where
  id : Int
  cache : CacheInfo
  cache_sharing : CacheSharing
deriving DecidableEq, Repr

/-- `CPUInfo`. -/
structure CPUInfo where
  identification : CPUIdentification
  core_counts : CPUCoreCounts
  frequency : CPUFrequency
  performance_levels : List PerformanceLevel
deriving DecidableEq, Repr

/-! ### Record builders -/

/-- `CPUIdentification::from_sysctl`. -/
def CPUIdentification.from_sysctl (reg : Registry) : CPUIdentification :=
  { brand_string := get_sysctl_value parse_string "" reg "machdep.cpu.brand_string"
    vendor := get_sysctl_value parse_string "" reg "machdep.cpu.vendor"
    feature_bits := get_sysctl_value parse_string "" reg "machdep.cpu.feature_bits" }

/-- `CPUCoreCounts::from_sysctl`. -/
def CPUCoreCounts.from_sysctl (reg : Registry) : CPUCoreCounts :=
  { physical := get_sysctl_value parse_i32 0 reg "hw.physicalcpu"
    logical := get_sysctl_value parse_i32 0 reg "hw.logicalcpu"
    max_physical := get_sysctl_value parse_i32 0 reg "hw.physicalcpu_max"
    max_logical := get_sysctl_value parse_i32 0 reg "hw.logicalcpu_max" }

/-- `CPUFrequency::from_sysctl`. -/
def CPUFrequency.from_sysctl (reg : Registry) : CPUFrequency :=
  { hz := get_sysctl_value parse_i64 0 reg "hw.cpufrequency" }

/-- `CacheInfo::from_sysctl_id`. -/
def CacheInfo.from_sysctl_id (reg : Registry) (id : Int) : CacheInfo :=
  let pfx := "hw.perflevel" ++ intDecimal id
  { l1_instruction_bytes := get_sysctl_value parse_i64 0 reg (pfx ++ ".l1icachesize")
    l1_data_bytes := get_sysctl_value parse_i64 0 reg (pfx ++ ".l1dcachesize")
    l2_bytes := get_sysctl_value parse_i64 0 reg (pfx ++ ".l2cachesize")
    l3_bytes := get_sysctl_value parse_i64 0 reg (pfx ++ ".l3cachesize") }

/-- `CacheSharing::from_sysctl_id`. -/
def CacheSharing.from_sysctl_id (reg : Registry) (id : Int) : CacheSharing :=
  let pfx := "hw.perflevel" ++ intDecimal id
  { cores_per_l2 := get_sysctl_value parse_i32 0 reg (pfx ++ ".cpusperl2")
    cores_per_l3 := get_sysctl_value parse_i32 0 reg (pfx ++ ".cpusperl3") }

/-- `PerformanceLevel::from_sysctl_id`. -/
def PerformanceLevel.from_sysctl_id (reg : Registry) (id : Int) : PerformanceLevel :=
  { id := id
    cache := CacheInfo.from_sysctl_id reg id
    cache_sharing := CacheSharing.from_sysctl_id reg id }

/-! ### Performance-level discovery -/

/-- The probe key `hw.perflevel{id}.l1icachesize` for the loop counter. -/
def probeKey (id : Nat) : String :=
  "hw.perflevel" ++ natDecimal id ++ ".l1icachesize"

/-- `Ctl::new(&test_key).is_ok()`: the existence probe of the discovery
loop. -/
def probeLevel (reg : Registry) (id : Nat) : Bool := reg.ctlNew (probeKey id)

/-- The discovery loop of `PerformanceLevel::all_from_sysctl` starting at
counter `id`.  The source iterates the unbounded `(0..)`; the embedding
unrolls it up to `fuel` steps, which is exact as soon as `fuel` exceeds the
first failing probe (stabilization is proved below). -/
def PerformanceLevel.all_from_sysctl_from (reg : Registry) (id : Nat) :
    Nat → List PerformanceLevel
  | 0 => []
  | fuel + 1 =>
    if probeLevel reg id then
      PerformanceLevel.from_sysctl_id reg (Int.ofNat id) ::
        PerformanceLevel.all_from_sysctl_from reg (id + 1) fuel
    else []

/-- `PerformanceLevel::all_from_sysctl`, unrolled to `fuel` iterations. -/
def PerformanceLevel.all_from_sysctl (reg : Registry) (fuel : Nat) :
    List PerformanceLevel :=
  PerformanceLevel.all_from_sysctl_from reg 0 fuel

/-- `CPUInfo::new`. -/
def CPUInfo.new (reg : Registry) (fuel : Nat) : CPUInfo :=
  { identification := CPUIdentification.from_sysctl reg
    core_counts := CPUCoreCounts.from_sysctl reg
    frequency := CPUFrequency.from_sysctl reg
    performance_levels := PerformanceLevel.all_from_sysctl reg fuel }

/-- `impl Default for CPUInfo`: `default()` delegates to `Self::new()`. -/
def CPUInfo.defaultImpl (reg : Registry) (fuel : Nat) : CPUInfo :=
  CPUInfo.new reg fuel

/-- The discovery loop terminates: its unrollings stabilize at some fuel. -/
def DiscoveryTerminates (reg : Registry) : Prop :=
  ∃ fuel, ∀ fuel₂, fuel ≤ fuel₂ →
    PerformanceLevel.all_from_sysctl reg fuel₂ =
      PerformanceLevel.all_from_sysctl reg fuel

/-- The per-level key `hw.perflevel{id}{s}` for a nonnegative id and a field
suffix `s`. -/
def natLevelKey (id : Nat) (s : String) : String :=
  "hw.perflevel" ++ natDecimal id ++ s

/-- The six per-level field suffixes, in the order the builders query them. -/
def perLevelSuffixes : List String :=
  [".l1icachesize", ".l1dcachesize", ".l2cachesize", ".l3cachesize",
   ".cpusperl2", ".cpusperl3"]

/-- Whether the first character of `s`, if any, is not a decimal digit. -/
def headNotDigit (s : String) : Bool :=
  match s.data with
  | [] => true
  | c :: _ => !c.isDigit

/-! ### Decimal rendering: round trip and injectivity -/

lemma digitChar_isDigit {n : Nat} (h : n < 10) :
    (Nat.digitChar n).isDigit = true := by
  interval_cases n <;> decide

lemma digitVal_digitChar {n : Nat} (h : n < 10) :
    digitVal (Nat.digitChar n) = n := by
  interval_cases n <;> decide

lemma digitsVal_append (l : List Char) (c : Char) :
    digitsVal (l ++ [c]) = digitsVal l * 10 + digitVal c := by
  simp [digitsVal, List.foldl_append]

lemma digitsVal_natDigitsCore (fuel : Nat) :
    ∀ n, n < 10 ^ fuel → digitsVal (natDigitsCore fuel n) = n := by
  induction fuel with
  | zero =>
    intro n h
    interval_cases n
    rfl
  | succ fuel ih =>
    intro n h
    by_cases h10 : n < 10
    · simp only [natDigitsCore, if_pos h10]
      have : digitsVal [Nat.digitChar n] = digitVal (Nat.digitChar n) := by
        simp [digitsVal]
      rw [this, digitVal_digitChar h10]
    · simp only [natDigitsCore, if_neg h10]
      have h1 : n / 10 < 10 ^ fuel := by
        rw [Nat.div_lt_iff_lt_mul (by norm_num)]
        calc n < 10 ^ (fuel + 1) := h
          _ = 10 ^ fuel * 10 := by ring
      rw [digitsVal_append, ih (n / 10) h1,
        digitVal_digitChar (Nat.mod_lt n (by norm_num))]
      omega

lemma natDigitsCore_isDigit (fuel : Nat) :
    ∀ n c, c ∈ natDigitsCore fuel n → c.isDigit = true := by
  induction fuel with
  | zero => intro n c hc; simp [natDigitsCore] at hc
  | succ fuel ih =>
    intro n c hc
    by_cases h10 : n < 10
    · simp only [natDigitsCore, if_pos h10, List.mem_singleton] at hc
      rw [hc]; exact digitChar_isDigit h10
    · simp only [natDigitsCore, if_neg h10, List.mem_append,
        List.mem_singleton] at hc
      rcases hc with hc | hc
      · exact ih _ _ hc
      · rw [hc]; exact digitChar_isDigit (Nat.mod_lt n (by norm_num))

lemma digitsVal_natDecimal (n : Nat) : digitsVal (natDecimal n).data = n := by
  have hlt : n < 10 ^ (n + 1) :=
    lt_of_lt_of_le (Nat.lt_pow_self (by norm_num) n)
      (Nat.pow_le_pow_right (by norm_num) (Nat.le_succ n))
  exact digitsVal_natDigitsCore (n + 1) n hlt

lemma natDecimal_inj {a b : Nat} (h : natDecimal a = natDecimal b) : a = b := by
  have := congrArg (fun s => digitsVal s.data) h
  simpa [digitsVal_natDecimal] using this

lemma natDecimal_isDigit (n : Nat) :
    ∀ c ∈ (natDecimal n).data, c.isDigit = true := by
  intro c hc
  exact natDigitsCore_isDigit (n + 1) n c hc

lemma digit_split_unique :
    ∀ (xs ys zs ws : List Char),
      (∀ c ∈ xs, c.isDigit = true) → (∀ c ∈ ys, c.isDigit = true) →
      (∀ c, zs.head? = some c → c.isDigit = false) →
      (∀ c, ws.head? = some c → c.isDigit = false) →
      xs ++ zs = ys ++ ws → xs = ys ∧ zs = ws := by
  intro xs
  induction xs with
  | nil =>
    intro ys zs ws hx hy hz hw heq
    cases ys with
    | nil => simpa using heq
    | cons y ys' =>
      exfalso
      simp only [List.nil_append, List.cons_append] at heq
      have h1 := hz y (by rw [heq]; rfl)
      have h2 := hy y (by simp)
      rw [h2] at h1
      simp at h1
  | cons x xs' ih =>
    intro ys zs ws hx hy hz hw heq
    cases ys with
    | nil =>
      exfalso
      simp only [List.cons_append, List.nil_append] at heq
      have h1 := hw x (by rw [← heq]; rfl)
      have h2 := hx x (by simp)
      rw [h2] at h1
      simp at h1
    | cons y ys' =>
      simp only [List.cons_append, List.cons.injEq] at heq
      obtain ⟨hxy, heq'⟩ := heq
      have hrec := ih ys' zs ws (fun c hc => hx c (by simp [hc]))
        (fun c hc => hy c (by simp [hc])) hz hw heq'
      exact ⟨by rw [hxy, hrec.1], hrec.2⟩

lemma headNotDigit_head {s : String} (hs : headNotDigit s = true) :
    ∀ c, s.data.head? = some c → c.isDigit = false := by
  intro c hc
  unfold headNotDigit at hs
  cases hd : s.data with
  | nil => rw [hd] at hc; exact absurd hc (by simp)
  | cons a l =>
    rw [hd] at hc hs
    simp only [List.head?_cons, Option.some.injEq] at hc
    simp only at hs
    rw [← hc]
    simpa using hs

lemma natLevelKey_inj {i j : Nat} {s t : String}
    (hs : headNotDigit s = true) (ht : headNotDigit t = true)
    (h : natLevelKey i s = natLevelKey j t) : i = j ∧ s = t := by
  have hd := congrArg String.data h
  simp only [natLevelKey, String.data_append, List.append_assoc] at hd
  have hd2 : (natDecimal i).data ++ s.data = (natDecimal j).data ++ t.data :=
    List.append_cancel_left hd
  have hsplit := digit_split_unique (natDecimal i).data (natDecimal j).data
    s.data t.data (natDecimal_isDigit i) (natDecimal_isDigit j)
    (headNotDigit_head hs) (headNotDigit_head ht) hd2
  constructor
  · exact natDecimal_inj (String.ext hsplit.1)
  · exact String.ext hsplit.2

/-! ### Value resolver behaviour -/

lemma get_sysctl_value_of_ctlNew_false {T : Type} (parse : String → Option T)
    (dflt : T) (reg : Registry) (key : String) (h : reg.ctlNew key = false) :
    get_sysctl_value parse dflt reg key = dflt := by
  simp [get_sysctl_value, ctlNewOpt, h]

lemma get_sysctl_value_of_read_none {T : Type} (parse : String → Option T)
    (dflt : T) (reg : Registry) (key : String)
    (h : reg.valueString key = none) :
    get_sysctl_value parse dflt reg key = dflt := by
  by_cases hc : reg.ctlNew key
  · simp [get_sysctl_value, ctlNewOpt, hc, h]
  · simp [get_sysctl_value, ctlNewOpt, hc]

lemma get_sysctl_value_of_parse_none {T : Type} (parse : String → Option T)
    (dflt : T) (reg : Registry) (key : String) (s : String)
    (h1 : reg.valueString key = some s) (h2 : parse s = none) :
    get_sysctl_value parse dflt reg key = dflt := by
  by_cases hc : reg.ctlNew key
  · simp [get_sysctl_value, ctlNewOpt, hc, h1, h2]
  · simp [get_sysctl_value, ctlNewOpt, hc]

lemma get_sysctl_value_of_parse_some {T : Type} (parse : String → Option T)
    (dflt : T) (reg : Registry) (key : String) (s : String) (v : T)
    (hc : reg.ctlNew key = true) (h1 : reg.valueString key = some s)
    (h2 : parse s = some v) :
    get_sysctl_value parse dflt reg key = v := by
  simp [get_sysctl_value, ctlNewOpt, hc, h1, h2]

/-! ### Discovery loop characterization -/

lemma all_from_sysctl_from_eq (reg : Registry) :
    ∀ (n id fuel : Nat), (∀ i, i < n → probeLevel reg (id + i) = true) →
      probeLevel reg (id + n) = false → n < fuel →
      PerformanceLevel.all_from_sysctl_from reg id fuel =
        (List.range n).map
          (fun k => PerformanceLevel.from_sysctl_id reg (Int.ofNat (id + k))) := by
  intro n
  induction n with
  | zero =>
    intro id fuel hsucc hfail hfuel
    match fuel, hfuel with
    | fuel + 1, _ =>
      simp only [PerformanceLevel.all_from_sysctl_from, List.range_zero,
        List.map_nil]
      rw [if_neg]
      simp only [Nat.add_zero] at hfail
      simp [hfail]
  | succ m ih =>
    intro id fuel hsucc hfail hfuel
    match fuel, hfuel with
    | fuel + 1, hfuel =>
      simp only [PerformanceLevel.all_from_sysctl_from]
      rw [if_pos (by simpa using hsucc 0 (Nat.succ_pos m))]
      have hsucc' : ∀ i, i < m → probeLevel reg (id + 1 + i) = true := by
        intro i hi
        have harith : id + 1 + i = id + (i + 1) := by omega
        rw [harith]
        exact hsucc (i + 1) (by omega)
      have hfail' : probeLevel reg (id + 1 + m) = false := by
        have harith : id + 1 + m = id + (m + 1) := by omega
        rw [harith]; exact hfail
      rw [ih (id + 1) fuel hsucc' hfail' (by omega)]
      rw [List.range_succ_eq_map, List.map_cons, List.map_map]
      simp only [Nat.add_zero]
      congr 1
      apply List.map_congr_left
      intro k _
      simp only [Function.comp_apply]
      have harith : id + 1 + k = id + Nat.succ k := by omega
      rw [harith]

lemma all_from_sysctl_eq (reg : Registry) (n fuel : Nat)
    (hsucc : ∀ i, i < n → probeLevel reg i = true)
    (hfail : probeLevel reg n = false) (hfuel : n < fuel) :
    PerformanceLevel.all_from_sysctl reg fuel =
      (List.range n).map
        (fun k => PerformanceLevel.from_sysctl_id reg (Int.ofNat k)) := by
  have h := all_from_sysctl_from_eq reg n 0 fuel (by simpa using hsucc)
    (by simpa using hfail) hfuel
  simpa [PerformanceLevel.all_from_sysctl] using h

lemma exists_first_fail (reg : Registry) (fuel : Nat)
    (h : ∃ n, n < fuel ∧ probeLevel reg n = false) :
    ∃ N, N < fuel ∧ (∀ i, i < N → probeLevel reg i = true) ∧
      probeLevel reg N = false := by
  obtain ⟨n, hn, hf⟩ := h
  have hex : ∃ m, probeLevel reg m = false := ⟨n, hf⟩
  refine ⟨Nat.find hex, ?_, ?_, Nat.find_spec hex⟩
  · exact lt_of_le_of_lt (Nat.find_le hf) hn
  · intro i hi
    have hne := Nat.find_min hex hi
    simpa using hne

lemma all_from_sysctl_from_length_of_no_fail (reg : Registry)
    (hall : ∀ i, probeLevel reg i = true) :
    ∀ (fuel id : Nat),
      (PerformanceLevel.all_from_sysctl_from reg id fuel).length = fuel := by
  intro fuel
  induction fuel with
  | zero => intro id; rfl
  | succ fuel ih =>
    intro id
    simp only [PerformanceLevel.all_from_sysctl_from, if_pos (hall id),
      List.length_cons, ih (id + 1)]

/-! ### Instrumented variants: the same code, recording registry queries -/

/-- A query issued to the registry collaborator: an existence probe / key
open (`Ctl::new`) or a value read (`value_string`). -/
inductive Query where
  | ctlNew (key : String)
  | valueString (key : String)
deriving DecidableEq, Repr

/-- `get_sysctl_value`, also returning the queries issued, in order:
the key is opened; on success its value is read; parsing is pure. -/
def get_sysctl_value_tr {T : Type} (parse : String → Option T) (dflt : T)
    (reg : Registry) (key : String) : T × List Query :=
  if reg.ctlNew key then
    match reg.valueString key with
    | none => (dflt, [Query.ctlNew key, Query.valueString key])
    | some s =>
      ((parse s).getD dflt, [Query.ctlNew key, Query.valueString key])
  else (dflt, [Query.ctlNew key])

/-- Keys opened (`Ctl::new`) in a query trace, in order. -/
def openedKeys (qs : List Query) : List String :=
  qs.filterMap (fun q =>
    match q with
    | Query.ctlNew k => some k
    | Query.valueString _ => none)

/-- Keys whose value is read in a query trace, in order. -/
def readKeys (qs : List Query) : List String :=
  qs.filterMap (fun q =>
    match q with
    | Query.ctlNew _ => none
    | Query.valueString k => some k)

/-- `CPUIdentification::from_sysctl`, instrumented. -/
def CPUIdentification.from_sysctl_tr (reg : Registry) :
    CPUIdentification × List Query :=
  let a := get_sysctl_value_tr parse_string "" reg "machdep.cpu.brand_string"
  let b := get_sysctl_value_tr parse_string "" reg "machdep.cpu.vendor"
  let c := get_sysctl_value_tr parse_string "" reg "machdep.cpu.feature_bits"
  ({ brand_string := a.1, vendor := b.1, feature_bits := c.1 },
    a.2 ++ b.2 ++ c.2)

/-- `CPUCoreCounts::from_sysctl`, instrumented. -/
def CPUCoreCounts.from_sysctl_tr (reg : Registry) :
    CPUCoreCounts × List Query :=
  let a := get_sysctl_value_tr parse_i32 0 reg "hw.physicalcpu"
  let b := get_sysctl_value_tr parse_i32 0 reg "hw.logicalcpu"
  let c := get_sysctl_value_tr parse_i32 0 reg "hw.physicalcpu_max"
  let d := get_sysctl_value_tr parse_i32 0 reg "hw.logicalcpu_max"
  ({ physical := a.1, logical := b.1, max_physical := c.1,
     max_logical := d.1 }, a.2 ++ b.2 ++ c.2 ++ d.2)

/-- `CPUFrequency::from_sysctl`, instrumented. -/
def CPUFrequency.from_sysctl_tr (reg : Registry) :
    CPUFrequency × List Query :=
  let a := get_sysctl_value_tr parse_i64 0 reg "hw.cpufrequency"
  ({ hz := a.1 }, a.2)

/-- `CacheInfo::from_sysctl_id`, instrumented. -/
def CacheInfo.from_sysctl_id_tr (reg : Registry) (id : Int) :
    CacheInfo × List Query :=
  let pfx := "hw.perflevel" ++ intDecimal id
  let a := get_sysctl_value_tr parse_i64 0 reg (pfx ++ ".l1icachesize")
  let b := get_sysctl_value_tr parse_i64 0 reg (pfx ++ ".l1dcachesize")
  let c := get_sysctl_value_tr parse_i64 0 reg (pfx ++ ".l2cachesize")
  let d := get_sysctl_value_tr parse_i64 0 reg (pfx ++ ".l3cachesize")
  ({ l1_instruction_bytes := a.1, l1_data_bytes := b.1, l2_bytes := c.1,
     l3_bytes := d.1 }, a.2 ++ b.2 ++ c.2 ++ d.2)

/-- `CacheSharing::from_sysctl_id`, instrumented. -/
def CacheSharing.from_sysctl_id_tr (reg : Registry) (id : Int) :
    CacheSharing × List Query :=
  let pfx := "hw.perflevel" ++ intDecimal id
  let a := get_sysctl_value_tr parse_i32 0 reg (pfx ++ ".cpusperl2")
  let b := get_sysctl_value_tr parse_i32 0 reg (pfx ++ ".cpusperl3")
  ({ cores_per_l2 := a.1, cores_per_l3 := b.1 }, a.2 ++ b.2)

/-- `PerformanceLevel::from_sysctl_id`, instrumented. -/
def PerformanceLevel.from_sysctl_id_tr (reg : Registry) (id : Int) :
    PerformanceLevel × List Query :=
  let cache := CacheInfo.from_sysctl_id_tr reg id
  let sharing := CacheSharing.from_sysctl_id_tr reg id
  ({ id := id, cache := cache.1, cache_sharing := sharing.1 },
    cache.2 ++ sharing.2)

/-- The discovery loop, instrumented. -/
def PerformanceLevel.all_from_sysctl_from_tr (reg : Registry) (id : Nat) :
    Nat → List PerformanceLevel × List Query
  | 0 => ([], [])
  | fuel + 1 =>
    if probeLevel reg id then
      let lvl := PerformanceLevel.from_sysctl_id_tr reg (Int.ofNat id)
      let rest := PerformanceLevel.all_from_sysctl_from_tr reg (id + 1) fuel
      (lvl.1 :: rest.1, Query.ctlNew (probeKey id) :: (lvl.2 ++ rest.2))
    else ([], [Query.ctlNew (probeKey id)])

/-- `PerformanceLevel::all_from_sysctl`, instrumented. -/
def PerformanceLevel.all_from_sysctl_tr (reg : Registry) (fuel : Nat) :
    List PerformanceLevel × List Query :=
  PerformanceLevel.all_from_sysctl_from_tr reg 0 fuel

/-! ### Instrumentation is conservative: first components agree -/

lemma get_sysctl_value_tr_fst {T : Type} (parse : String → Option T)
    (dflt : T) (reg : Registry) (key : String) :
    (get_sysctl_value_tr parse dflt reg key).1 =
      get_sysctl_value parse dflt reg key := by
  by_cases hc : reg.ctlNew key
  · cases hv : reg.valueString key with
    | none => simp [get_sysctl_value_tr, get_sysctl_value, ctlNewOpt, hc, hv]
    | some s => simp [get_sysctl_value_tr, get_sysctl_value, ctlNewOpt, hc, hv]
  · simp [get_sysctl_value_tr, get_sysctl_value, ctlNewOpt, hc]

lemma from_sysctl_id_tr_fst (reg : Registry) (id : Int) :
    (PerformanceLevel.from_sysctl_id_tr reg id).1 =
      PerformanceLevel.from_sysctl_id reg id := by
  simp [PerformanceLevel.from_sysctl_id_tr, PerformanceLevel.from_sysctl_id,
    CacheInfo.from_sysctl_id_tr, CacheInfo.from_sysctl_id,
    CacheSharing.from_sysctl_id_tr, CacheSharing.from_sysctl_id,
    get_sysctl_value_tr_fst]

lemma all_from_sysctl_from_tr_fst (reg : Registry) :
    ∀ (fuel id : Nat),
      (PerformanceLevel.all_from_sysctl_from_tr reg id fuel).1 =
        PerformanceLevel.all_from_sysctl_from reg id fuel := by
  intro fuel
  induction fuel with
  | zero => intro id; rfl
  | succ fuel ih =>
    intro id
    by_cases hp : probeLevel reg id
    · simp [PerformanceLevel.all_from_sysctl_from_tr,
        PerformanceLevel.all_from_sysctl_from, hp, from_sysctl_id_tr_fst,
        ih (id + 1)]
    · simp [PerformanceLevel.all_from_sysctl_from_tr,
        PerformanceLevel.all_from_sysctl_from, hp]

/-! ### Query-trace characterization of the discovery loop -/

lemma mem_get_sysctl_value_tr_trace {T : Type} (parse : String → Option T)
    (dflt : T) (reg : Registry) (key : String) (q : Query)
    (hq : q ∈ (get_sysctl_value_tr parse dflt reg key).2) :
    q = Query.ctlNew key ∨ q = Query.valueString key := by
  by_cases hc : reg.ctlNew key
  · cases hv : reg.valueString key with
    | none =>
      simp only [get_sysctl_value_tr, if_pos hc, hv, List.mem_cons,
        List.mem_singleton, List.not_mem_nil, or_false] at hq
      exact hq
    | some s =>
      simp only [get_sysctl_value_tr, if_pos hc, hv, List.mem_cons,
        List.mem_singleton, List.not_mem_nil, or_false] at hq
      exact hq
  · simp only [get_sysctl_value_tr, if_neg hc, List.mem_singleton] at hq
    exact Or.inl hq

lemma intDecimal_ofNat (n : Nat) : intDecimal (Int.ofNat n) = natDecimal n :=
  rfl

lemma probeKey_eq_natLevelKey (id : Nat) :
    probeKey id = natLevelKey id ".l1icachesize" := rfl

lemma mem_from_sysctl_id_tr_trace (reg : Registry) (i : Nat) (q : Query)
    (hq : q ∈ (PerformanceLevel.from_sysctl_id_tr reg (Int.ofNat i)).2) :
    ∃ s ∈ perLevelSuffixes,
      q = Query.ctlNew (natLevelKey i s) ∨
        q = Query.valueString (natLevelKey i s) := by
  simp only [PerformanceLevel.from_sysctl_id_tr, CacheInfo.from_sysctl_id_tr,
    CacheSharing.from_sysctl_id_tr, List.mem_append] at hq
  rcases hq with (((h | h) | h) | h) | (h | h)
  · exact ⟨".l1icachesize", by simp [perLevelSuffixes],
      mem_get_sysctl_value_tr_trace _ _ _ _ _ h⟩
  · exact ⟨".l1dcachesize", by simp [perLevelSuffixes],
      mem_get_sysctl_value_tr_trace _ _ _ _ _ h⟩
  · exact ⟨".l2cachesize", by simp [perLevelSuffixes],
      mem_get_sysctl_value_tr_trace _ _ _ _ _ h⟩
  · exact ⟨".l3cachesize", by simp [perLevelSuffixes],
      mem_get_sysctl_value_tr_trace _ _ _ _ _ h⟩
  · exact ⟨".cpusperl2", by simp [perLevelSuffixes],
      mem_get_sysctl_value_tr_trace _ _ _ _ _ h⟩
  · exact ⟨".cpusperl3", by simp [perLevelSuffixes],
      mem_get_sysctl_value_tr_trace _ _ _ _ _ h⟩

/-- The queries a terminating discovery pass issues: for each of the `n`
successfully probed ids, the probe followed by that level's value queries,
and then the single failing probe at id `id + n`. -/
def discoveryTrace (reg : Registry) : Nat → Nat → List Query
  | id, 0 => [Query.ctlNew (probeKey id)]
  | id, n + 1 =>
    Query.ctlNew (probeKey id) ::
      ((PerformanceLevel.from_sysctl_id_tr reg (Int.ofNat id)).2 ++
        discoveryTrace reg (id + 1) n)

lemma all_from_sysctl_from_tr_trace (reg : Registry) :
    ∀ (n id fuel : Nat), (∀ i, i < n → probeLevel reg (id + i) = true) →
      probeLevel reg (id + n) = false → n < fuel →
      (PerformanceLevel.all_from_sysctl_from_tr reg id fuel).2 =
        discoveryTrace reg id n := by
  intro n
  induction n with
  | zero =>
    intro id fuel hsucc hfail hfuel
    match fuel, hfuel with
    | fuel + 1, _ =>
      have hf : probeLevel reg id = false := by simpa using hfail
      simp [PerformanceLevel.all_from_sysctl_from_tr, hf, discoveryTrace]
  | succ m ih =>
    intro id fuel hsucc hfail hfuel
    match fuel, hfuel with
    | fuel + 1, hfuel =>
      have hp : probeLevel reg id = true := by
        simpa using hsucc 0 (Nat.succ_pos m)
      have hsucc' : ∀ i, i < m → probeLevel reg (id + 1 + i) = true := by
        intro i hi
        have harith : id + 1 + i = id + (i + 1) := by omega
        rw [harith]
        exact hsucc (i + 1) (by omega)
      have hfail' : probeLevel reg (id + 1 + m) = false := by
        have harith : id + 1 + m = id + (m + 1) := by omega
        rw [harith]; exact hfail
      simp only [PerformanceLevel.all_from_sysctl_from_tr, if_pos hp]
      rw [show (discoveryTrace reg id (m + 1)) =
        Query.ctlNew (probeKey id) ::
          ((PerformanceLevel.from_sysctl_id_tr reg (Int.ofNat id)).2 ++
            discoveryTrace reg (id + 1) m) from rfl]
      rw [← ih (id + 1) fuel hsucc' hfail' (by omega)]

lemma mem_discoveryTrace (reg : Registry) :
    ∀ (n id : Nat) (q : Query), q ∈ discoveryTrace reg id n →
      (∃ k, k ≤ n ∧ q = Query.ctlNew (probeKey (id + k))) ∨
      (∃ k, k < n ∧
        q ∈ (PerformanceLevel.from_sysctl_id_tr reg (Int.ofNat (id + k))).2) := by
  intro n
  induction n with
  | zero =>
    intro id q hq
    simp only [discoveryTrace, List.mem_singleton] at hq
    exact Or.inl ⟨0, Nat.le_refl 0, by simpa using hq⟩
  | succ m ih =>
    intro id q hq
    simp only [discoveryTrace, List.mem_cons, List.mem_append] at hq
    rcases hq with hq | hq | hq
    · exact Or.inl ⟨0, by omega, by simpa using hq⟩
    · exact Or.inr ⟨0, by omega, by simpa using hq⟩
    · rcases ih (id + 1) q hq with ⟨k, hk, hq'⟩ | ⟨k, hk, hq'⟩
      · refine Or.inl ⟨k + 1, by omega, ?_⟩
        have harith : id + (k + 1) = id + 1 + k := by omega
        rw [harith]; exact hq'
      · refine Or.inr ⟨k + 1, by omega, ?_⟩
        have harith : id + (k + 1) = id + 1 + k := by omega
        rw [harith]; exact hq'

lemma headNotDigit_suffixes : ∀ s ∈ perLevelSuffixes, headNotDigit s = true := by
  intro s hs
  simp only [perLevelSuffixes, List.mem_cons, List.mem_singleton,
    List.not_mem_nil, or_false] at hs
  rcases hs with rfl | rfl | rfl | rfl | rfl | rfl <;> rfl

lemma probeKey_inj {i j : Nat} (h : probeKey i = probeKey j) : i = j :=
  (natLevelKey_inj (by rfl) (by rfl) h).1

lemma count_probe_discoveryTrace (reg : Registry) :
    ∀ (n id : Nat),
      (discoveryTrace reg id n).count (Query.ctlNew (probeKey (id + n))) = 1 := by
  intro n
  induction n with
  | zero => intro id; simp [discoveryTrace]
  | succ m ih =>
    intro id
    have h1 : Query.ctlNew (probeKey (id + (m + 1))) ≠
        Query.ctlNew (probeKey id) := by
      intro hcon
      have hkey : probeKey (id + (m + 1)) = probeKey id := by
        injection hcon
      have := probeKey_inj hkey
      omega
    have h2 : Query.ctlNew (probeKey (id + (m + 1))) ∉
        (PerformanceLevel.from_sysctl_id_tr reg (Int.ofNat id)).2 := by
      intro hmem
      obtain ⟨s, hs, hq | hq⟩ := mem_from_sysctl_id_tr_trace reg id _ hmem
      · have hkey : probeKey (id + (m + 1)) = natLevelKey id s := by
          injection hq
        rw [probeKey_eq_natLevelKey] at hkey
        have := natLevelKey_inj (by rfl) (headNotDigit_suffixes s hs) hkey
        omega
      · exact absurd hq (by simp)
    have h3 : (discoveryTrace reg (id + 1) m).count
        (Query.ctlNew (probeKey (id + (m + 1)))) = 1 := by
      have harith : id + (m + 1) = id + 1 + m := by omega
      rw [harith]
      exact ih (id + 1)
    have h4 : ¬probeKey id = probeKey (id + (m + 1)) := by
      intro hcon
      have := probeKey_inj hcon
      omega
    simp only [discoveryTrace, List.count_cons, List.count_append]
    rw [List.count_eq_zero.mpr h2, h3]
    simp [h4]

/-! ### Record builders, spelled out (definitional field lemmas) -/

lemma cacheInfo_from_sysctl_id_fields (reg : Registry) (id : Int) :
    CacheInfo.from_sysctl_id reg id =
      { l1_instruction_bytes :=
          get_sysctl_value parse_i64 0 reg
            ("hw.perflevel" ++ intDecimal id ++ ".l1icachesize"),
        l1_data_bytes :=
          get_sysctl_value parse_i64 0 reg
            ("hw.perflevel" ++ intDecimal id ++ ".l1dcachesize"),
        l2_bytes :=
          get_sysctl_value parse_i64 0 reg
            ("hw.perflevel" ++ intDecimal id ++ ".l2cachesize"),
        l3_bytes :=
          get_sysctl_value parse_i64 0 reg
            ("hw.perflevel" ++ intDecimal id ++ ".l3cachesize") } := rfl

lemma cacheSharing_from_sysctl_id_fields (reg : Registry) (id : Int) :
    CacheSharing.from_sysctl_id reg id =
      { cores_per_l2 :=
          get_sysctl_value parse_i32 0 reg
            ("hw.perflevel" ++ intDecimal id ++ ".cpusperl2"),
        cores_per_l3 :=
          get_sysctl_value parse_i32 0 reg
            ("hw.perflevel" ++ intDecimal id ++ ".cpusperl3") } := rfl

/-! ### Concrete registries used as witness inputs -/

/-- A registry in which no key exists. -/
def emptyReg : Registry :=
  { ctlNew := fun _ => false, valueString := fun _ => none }

/-- A second registry giving the same answers as `emptyReg`. -/
def emptyRegTwin : Registry :=
  { ctlNew := fun _ => false, valueString := fun _ => none }

/-- A registry in which every key exists. -/
def allTrueReg : Registry :=
  { ctlNew := fun _ => true, valueString := fun _ => some "0" }

/-- `hw.physicalcpu` exists but holds non-numeric text. -/
def abcReg : Registry :=
  { ctlNew := fun k => k == "hw.physicalcpu",
    valueString := fun k =>
      if k == "hw.physicalcpu" then some "abc" else none }

/-- `hw.physicalcpu` exists and holds `"42"`. -/
def fortyTwoReg : Registry :=
  { ctlNew := fun k => k == "hw.physicalcpu",
    valueString := fun k =>
      if k == "hw.physicalcpu" then some "42" else none }

/-- Only the id-0 probe key exists; in particular
`hw.perflevel0.cpusperl3` does not. -/
def oneLevelReg : Registry :=
  { ctlNew := fun k => k == "hw.perflevel0.l1icachesize",
    valueString := fun _ => none }

/-- The probe keys of ids 0 and 1 exist; the id-2 probe fails. -/
def twoLevelReg : Registry :=
  { ctlNew := fun k =>
      k == "hw.perflevel0.l1icachesize" || k == "hw.perflevel1.l1icachesize",
    valueString := fun _ => none }

/-! ### Claims -/

/-- C1: for every registry state (with a failing probe within the iteration
bound), discovery returns a sequence of length `N` such that the probe on
`hw.perflevel{id}.l1icachesize` succeeded for every id below `N` and failed
for id `N`; if the probe for id 0 fails the result is empty. -/
theorem C1_discovery_gapless (reg : Registry) (fuel : Nat)
    (h : ∃ n, n < fuel ∧ probeLevel reg n = false) :
    (∀ i, i < (PerformanceLevel.all_from_sysctl reg fuel).length →
      probeLevel reg i = true) ∧
    probeLevel reg (PerformanceLevel.all_from_sysctl reg fuel).length =
      false ∧
    (probeLevel reg 0 = false →
      PerformanceLevel.all_from_sysctl reg fuel = []) := by
  obtain ⟨N, hNf, hsucc, hfail⟩ := exists_first_fail reg fuel h
  have heq := all_from_sysctl_eq reg N fuel hsucc hfail hNf
  have hlen : (PerformanceLevel.all_from_sysctl reg fuel).length = N := by
    rw [heq]; simp
  refine ⟨?_, ?_, ?_⟩
  · intro i hi
    rw [hlen] at hi
    exact hsucc i hi
  · rw [hlen]; exact hfail
  · intro h0
    have hN0 : N = 0 := by
      by_contra hne
      have htrue := hsucc 0 (Nat.pos_of_ne_zero hne)
      rw [h0] at htrue
      exact Bool.noConfusion htrue
    rw [heq, hN0]
    simp

/-- C1 witness: on a registry with exactly two probe keys, at bound 3. -/
theorem C1_discovery_gapless_witness :
    (∀ i, i < (PerformanceLevel.all_from_sysctl twoLevelReg 3).length →
      probeLevel twoLevelReg i = true) ∧
    probeLevel twoLevelReg
      (PerformanceLevel.all_from_sysctl twoLevelReg 3).length = false ∧
    (probeLevel twoLevelReg 0 = false →
      PerformanceLevel.all_from_sysctl twoLevelReg 3 = []) :=
  C1_discovery_gapless twoLevelReg 3 ⟨2, by decide, by decide⟩

/-- C2: for every key and every scalar type (given by a parse function and
a default), the resolver returns the default whenever the key does not
exist, its value is unreadable, or its text does not parse; otherwise the
parsed value.  In particular a non-numeric `hw.physicalcpu` gives
`core_counts.physical = 0`. -/
theorem C2_resolver_defaults {T : Type} (parse : String → Option T)
    (dflt : T) (reg : Registry) (key : String) :
    (reg.ctlNew key = false → get_sysctl_value parse dflt reg key = dflt) ∧
    (reg.valueString key = none →
      get_sysctl_value parse dflt reg key = dflt) ∧
    (∀ s, reg.valueString key = some s → parse s = none →
      get_sysctl_value parse dflt reg key = dflt) ∧
    (∀ s v, reg.ctlNew key = true → reg.valueString key = some s →
      parse s = some v → get_sysctl_value parse dflt reg key = v) ∧
    (∀ (reg' : Registry) (s : String),
      reg'.valueString "hw.physicalcpu" = some s → parse_i32 s = none →
      (CPUCoreCounts.from_sysctl reg').physical = 0) := by
  refine ⟨?_, ?_, ?_, ?_, ?_⟩
  · exact get_sysctl_value_of_ctlNew_false parse dflt reg key
  · exact get_sysctl_value_of_read_none parse dflt reg key
  · intro s h1 h2
    exact get_sysctl_value_of_parse_none parse dflt reg key s h1 h2
  · intro s v hc h1 h2
    exact get_sysctl_value_of_parse_some parse dflt reg key s v hc h1 h2
  · intro reg' s h1 h2
    exact get_sysctl_value_of_parse_none parse_i32 0 reg' "hw.physicalcpu"
      s h1 h2

/-- C2 witness: `hw.physicalcpu` exists with text `"abc"`; the core count
resolves to 0. -/
theorem C2_resolver_defaults_witness :
    (CPUCoreCounts.from_sysctl abcReg).physical = 0 :=
  (C2_resolver_defaults parse_i32 (0 : Int) abcReg "hw.physicalcpu").2.2.2.2
    abcReg "abc" (by decide) (by decide)

/-- C4: a record is included based solely on the probe key: if the id-0
probe succeeds but `hw.perflevel0.cpusperl3` does not exist, record 0 is
still built and its `cache_sharing.cores_per_l3` is 0. -/
theorem C4_partial_field_record (reg : Registry) (fuel : Nat)
    (hfuel : 0 < fuel) (h0 : probeLevel reg 0 = true)
    (hmiss : reg.ctlNew "hw.perflevel0.cpusperl3" = false) :
    (PerformanceLevel.all_from_sysctl reg fuel).head? =
      some (PerformanceLevel.from_sysctl_id reg 0) ∧
    (PerformanceLevel.from_sysctl_id reg 0).cache_sharing.cores_per_l3 =
      0 := by
  constructor
  · match fuel, hfuel with
    | fuel + 1, _ =>
      simp [PerformanceLevel.all_from_sysctl,
        PerformanceLevel.all_from_sysctl_from, h0]
  · have hkey : ("hw.perflevel" ++ intDecimal 0 ++ ".cpusperl3") =
        "hw.perflevel0.cpusperl3" := by decide
    have := cacheSharing_from_sysctl_id_fields reg 0
    show (CacheSharing.from_sysctl_id reg 0).cores_per_l3 = 0
    rw [this]
    simp only []
    rw [hkey]
    exact get_sysctl_value_of_ctlNew_false parse_i32 0 reg
      "hw.perflevel0.cpusperl3" hmiss

/-- C4 witness: a registry exposing only the id-0 probe key. -/
theorem C4_partial_field_record_witness :
    (PerformanceLevel.all_from_sysctl oneLevelReg 1).head? =
      some (PerformanceLevel.from_sysctl_id oneLevelReg 0) ∧
    (PerformanceLevel.from_sysctl_id oneLevelReg 0).cache_sharing.cores_per_l3 =
      0 :=
  C4_partial_field_record oneLevelReg 1 (by decide) (by decide) (by decide)

/-- C5: the record at position `i` of the discovered sequence has id equal
to `i`: ids start at 0, are dense and ascend in discovery order. -/
theorem C5_dense_ordered_ids (reg : Registry) (fuel : Nat)
    (h : ∃ n, n < fuel ∧ probeLevel reg n = false) :
    ∀ (i : Nat) (hi : i < (PerformanceLevel.all_from_sysctl reg fuel).length),
      ((PerformanceLevel.all_from_sysctl reg fuel).get ⟨i, hi⟩).id =
        Int.ofNat i := by
  obtain ⟨N, hNf, hsucc, hfail⟩ := exists_first_fail reg fuel h
  have heq := all_from_sysctl_eq reg N fuel hsucc hfail hNf
  intro i hi
  have hiN : i < N := by
    have hlen : (PerformanceLevel.all_from_sysctl reg fuel).length = N := by
      rw [heq]; simp
    omega
  have hget : (PerformanceLevel.all_from_sysctl reg fuel).get ⟨i, hi⟩ =
      PerformanceLevel.from_sysctl_id reg (Int.ofNat i) := by
    have := List.get_of_eq heq ⟨i, hi⟩
    rw [this]
    simp
  rw [hget]
  rfl

/-- C5 witness: position 0 of the two-level registry's sequence has id 0. -/
theorem C5_dense_ordered_ids_witness :
    ((PerformanceLevel.all_from_sysctl twoLevelReg 5).get
      ⟨0, by decide⟩).id = Int.ofNat 0 :=
  C5_dense_ordered_ids twoLevelReg 5 ⟨2, by decide, by decide⟩ 0 (by decide)

/-- C3: in a terminating discovery pass with first failing id `k` (the
result length), the value of no per-level key of any id `≥ k` is ever read,
the only existence probe at an id `≥ k` is the single failing probe of the
key `hw.perflevel{k}.l1icachesize`, and that probe happens exactly once. -/
theorem C3_no_query_beyond_failure (reg : Registry) (fuel : Nat)
    (h : ∃ n, n < fuel ∧ probeLevel reg n = false) :
    probeLevel reg (PerformanceLevel.all_from_sysctl reg fuel).length =
      false ∧
    (PerformanceLevel.all_from_sysctl_tr reg fuel).2.count
      (Query.ctlNew
        (probeKey (PerformanceLevel.all_from_sysctl reg fuel).length)) = 1 ∧
    (∀ (i : Nat) (s : String), s ∈ perLevelSuffixes →
      (PerformanceLevel.all_from_sysctl reg fuel).length ≤ i →
      Query.valueString (natLevelKey i s) ∉
        (PerformanceLevel.all_from_sysctl_tr reg fuel).2 ∧
      (Query.ctlNew (natLevelKey i s) ∈
          (PerformanceLevel.all_from_sysctl_tr reg fuel).2 →
        i = (PerformanceLevel.all_from_sysctl reg fuel).length ∧
          s = ".l1icachesize")) := by
  obtain ⟨N, hNf, hsucc, hfail⟩ := exists_first_fail reg fuel h
  have heq := all_from_sysctl_eq reg N fuel hsucc hfail hNf
  have hlen : (PerformanceLevel.all_from_sysctl reg fuel).length = N := by
    rw [heq]; simp
  have htr : (PerformanceLevel.all_from_sysctl_tr reg fuel).2 =
      discoveryTrace reg 0 N := by
    have := all_from_sysctl_from_tr_trace reg N 0 fuel
      (by simpa using hsucc) (by simpa using hfail) hNf
    simpa [PerformanceLevel.all_from_sysctl_tr] using this
  refine ⟨?_, ?_, ?_⟩
  · rw [hlen]; exact hfail
  · rw [hlen, htr]
    have := count_probe_discoveryTrace reg N 0
    simpa using this
  · intro i s hs hiN
    rw [hlen] at hiN
    constructor
    · intro hmem
      rw [htr] at hmem
      rcases mem_discoveryTrace reg N 0 _ hmem with ⟨k, hk, hq⟩ |
        ⟨k, hk, hq⟩
      · exact absurd hq (by simp)
      · obtain ⟨t, ht, hq' | hq'⟩ :=
          mem_from_sysctl_id_tr_trace reg (0 + k) _ (by simpa using hq)
        · exact absurd hq' (by simp)
        · have hkey : natLevelKey i s = natLevelKey (0 + k) t := by
            injection hq'
          have hij := natLevelKey_inj (headNotDigit_suffixes s hs)
            (headNotDigit_suffixes t ht) hkey
          omega
    · intro hmem
      rw [htr] at hmem
      rcases mem_discoveryTrace reg N 0 _ hmem with ⟨k, hk, hq⟩ |
        ⟨k, hk, hq⟩
      · have hkey : natLevelKey i s = probeKey (0 + k) := by
          injection hq
        rw [probeKey_eq_natLevelKey] at hkey
        have hij := natLevelKey_inj (headNotDigit_suffixes s hs)
          (by rfl) hkey
        constructor
        · omega
        · exact hij.2
      · obtain ⟨t, ht, hq' | hq'⟩ :=
          mem_from_sysctl_id_tr_trace reg (0 + k) _ (by simpa using hq)
        · have hkey : natLevelKey i s = natLevelKey (0 + k) t := by
            injection hq'
          have hij := natLevelKey_inj (headNotDigit_suffixes s hs)
            (headNotDigit_suffixes t ht) hkey
          omega
        · exact absurd hq' (by simp)

/-- C3 witness: on the two-level registry nothing at any id ≥ 2 is read. -/
theorem C3_no_query_beyond_failure_witness :
    probeLevel twoLevelReg
      (PerformanceLevel.all_from_sysctl twoLevelReg 4).length = false ∧
    (PerformanceLevel.all_from_sysctl_tr twoLevelReg 4).2.count
      (Query.ctlNew
        (probeKey (PerformanceLevel.all_from_sysctl twoLevelReg 4).length)) =
      1 ∧
    Query.valueString (natLevelKey 5 ".l2cachesize") ∉
      (PerformanceLevel.all_from_sysctl_tr twoLevelReg 4).2 :=
  ⟨(C3_no_query_beyond_failure twoLevelReg 4 ⟨2, by decide, by decide⟩).1,
   (C3_no_query_beyond_failure twoLevelReg 4 ⟨2, by decide, by decide⟩).2.1,
   ((C3_no_query_beyond_failure twoLevelReg 4 ⟨2, by decide, by decide⟩).2.2
     5 ".l2cachesize" (by simp [perLevelSuffixes]) (by decide)).1⟩

/-- C6 counterexample: the claim quantifies over every registry state, but
in the state where every key exists the discovery loop never stops — its
unrollings never stabilize, so `all_from_sysctl` does not terminate. -/
theorem C6_counterexample : ¬ DiscoveryTerminates allTrueReg := by
  intro hterm
  obtain ⟨fuel, hst⟩ := hterm
  have hall : ∀ i, probeLevel allTrueReg i = true := fun i => rfl
  have hl1 := all_from_sysctl_from_length_of_no_fail allTrueReg hall
    (fuel + 1) 0
  have hl2 := all_from_sysctl_from_length_of_no_fail allTrueReg hall fuel 0
  have hstep := hst (fuel + 1) (by omega)
  have hlen := congrArg List.length hstep
  rw [PerformanceLevel.all_from_sysctl, PerformanceLevel.all_from_sysctl,
    hl1, hl2] at hlen
  omega

/-- C6 amended: for every registry state in which the existence probe fails
at some id (below the iteration bound), discovery terminates: the loop
stabilizes and returns the same finite sequence for every larger bound. -/
theorem C6_amended_terminates (reg : Registry) (fuel : Nat)
    (h : ∃ n, n < fuel ∧ probeLevel reg n = false) :
    DiscoveryTerminates reg ∧
    ∀ fuel₂, fuel ≤ fuel₂ →
      PerformanceLevel.all_from_sysctl reg fuel₂ =
        PerformanceLevel.all_from_sysctl reg fuel := by
  obtain ⟨N, hNf, hsucc, hfail⟩ := exists_first_fail reg fuel h
  have hstable : ∀ fuel₂, fuel ≤ fuel₂ →
      PerformanceLevel.all_from_sysctl reg fuel₂ =
        PerformanceLevel.all_from_sysctl reg fuel := by
    intro fuel₂ hf2
    rw [all_from_sysctl_eq reg N fuel₂ hsucc hfail (by omega),
      all_from_sysctl_eq reg N fuel hsucc hfail hNf]
  exact ⟨⟨fuel, hstable⟩, hstable⟩

/-- C6 witness: the empty registry terminates at once. -/
theorem C6_amended_terminates_witness :
    DiscoveryTerminates emptyReg ∧
    PerformanceLevel.all_from_sysctl emptyReg 5 =
      PerformanceLevel.all_from_sysctl emptyReg 1 :=
  ⟨(C6_amended_terminates emptyReg 1 ⟨0, by decide, by decide⟩).1,
   (C6_amended_terminates emptyReg 1 ⟨0, by decide, by decide⟩).2 5
     (by decide)⟩

/-- C7: snapshot construction is deterministic in the registry: two
registries giving the same answer to every query yield field-for-field
identical snapshots. -/
theorem C7_deterministic (reg₁ reg₂ : Registry) (fuel : Nat)
    (hopen : ∀ k, reg₁.ctlNew k = reg₂.ctlNew k)
    (hread : ∀ k, reg₁.valueString k = reg₂.valueString k) :
    CPUInfo.new reg₁ fuel = CPUInfo.new reg₂ fuel ∧
    (CPUInfo.new reg₁ fuel).identification =
      (CPUInfo.new reg₂ fuel).identification ∧
    (CPUInfo.new reg₁ fuel).core_counts =
      (CPUInfo.new reg₂ fuel).core_counts ∧
    (CPUInfo.new reg₁ fuel).frequency = (CPUInfo.new reg₂ fuel).frequency ∧
    (CPUInfo.new reg₁ fuel).performance_levels =
      (CPUInfo.new reg₂ fuel).performance_levels := by
  have hreg : reg₁ = reg₂ := by
    cases reg₁
    cases reg₂
    simp only [Registry.mk.injEq]
    exact ⟨funext hopen, funext hread⟩
  subst hreg
  exact ⟨rfl, rfl, rfl, rfl, rfl⟩

/-- C7 witness: two syntactically distinct registries with identical
behaviour produce the same snapshot. -/
theorem C7_deterministic_witness :
    CPUInfo.new emptyReg 3 = CPUInfo.new emptyRegTwin 3 ∧
    (CPUInfo.new emptyReg 3).identification =
      (CPUInfo.new emptyRegTwin 3).identification ∧
    (CPUInfo.new emptyReg 3).core_counts =
      (CPUInfo.new emptyRegTwin 3).core_counts ∧
    (CPUInfo.new emptyReg 3).frequency =
      (CPUInfo.new emptyRegTwin 3).frequency ∧
    (CPUInfo.new emptyReg 3).performance_levels =
      (CPUInfo.new emptyRegTwin 3).performance_levels :=
  C7_deterministic emptyReg emptyRegTwin 3 (fun _ => rfl) (fun _ => rfl)

lemma openedKeys_append (l₁ l₂ : List Query) :
    openedKeys (l₁ ++ l₂) = openedKeys l₁ ++ openedKeys l₂ :=
  List.filterMap_append l₁ l₂ _

lemma openedKeys_get_sysctl_value_tr {T : Type} (parse : String → Option T)
    (dflt : T) (reg : Registry) (key : String) :
    openedKeys (get_sysctl_value_tr parse dflt reg key).2 = [key] := by
  by_cases hc : reg.ctlNew key
  · cases hv : reg.valueString key with
    | none => simp [get_sysctl_value_tr, openedKeys, hc, hv]
    | some s => simp [get_sysctl_value_tr, openedKeys, hc, hv]
  · simp [get_sysctl_value_tr, openedKeys, hc]

/-- C8: the fixed-group builders open exactly the catalog keys, in order,
for every registry (no branching), and each field is the resolver's answer
for its catalog key. -/
theorem C8_fixed_catalog (reg : Registry) :
    openedKeys (CPUIdentification.from_sysctl_tr reg).2 =
      ["machdep.cpu.brand_string", "machdep.cpu.vendor",
       "machdep.cpu.feature_bits"] ∧
    openedKeys (CPUCoreCounts.from_sysctl_tr reg).2 =
      ["hw.physicalcpu", "hw.logicalcpu", "hw.physicalcpu_max",
       "hw.logicalcpu_max"] ∧
    openedKeys (CPUFrequency.from_sysctl_tr reg).2 = ["hw.cpufrequency"] ∧
    (CPUIdentification.from_sysctl_tr reg).1 =
      CPUIdentification.from_sysctl reg ∧
    (CPUCoreCounts.from_sysctl_tr reg).1 = CPUCoreCounts.from_sysctl reg ∧
    (CPUFrequency.from_sysctl_tr reg).1 = CPUFrequency.from_sysctl reg ∧
    (CPUIdentification.from_sysctl reg).brand_string =
      get_sysctl_value parse_string "" reg "machdep.cpu.brand_string" ∧
    (CPUIdentification.from_sysctl reg).vendor =
      get_sysctl_value parse_string "" reg "machdep.cpu.vendor" ∧
    (CPUIdentification.from_sysctl reg).feature_bits =
      get_sysctl_value parse_string "" reg "machdep.cpu.feature_bits" ∧
    (CPUCoreCounts.from_sysctl reg).physical =
      get_sysctl_value parse_i32 0 reg "hw.physicalcpu" ∧
    (CPUCoreCounts.from_sysctl reg).logical =
      get_sysctl_value parse_i32 0 reg "hw.logicalcpu" ∧
    (CPUCoreCounts.from_sysctl reg).max_physical =
      get_sysctl_value parse_i32 0 reg "hw.physicalcpu_max" ∧
    (CPUCoreCounts.from_sysctl reg).max_logical =
      get_sysctl_value parse_i32 0 reg "hw.logicalcpu_max" ∧
    (CPUFrequency.from_sysctl reg).hz =
      get_sysctl_value parse_i64 0 reg "hw.cpufrequency" := by
  refine ⟨?_, ?_, ?_, ?_, ?_, ?_, rfl, rfl, rfl, rfl, rfl, rfl, rfl, rfl⟩
  · simp [CPUIdentification.from_sysctl_tr, openedKeys_append,
      openedKeys_get_sysctl_value_tr]
  · simp [CPUCoreCounts.from_sysctl_tr, openedKeys_append,
      openedKeys_get_sysctl_value_tr]
  · simp [CPUFrequency.from_sysctl_tr, openedKeys_append,
      openedKeys_get_sysctl_value_tr]
  · simp [CPUIdentification.from_sysctl_tr, CPUIdentification.from_sysctl,
      get_sysctl_value_tr_fst]
  · simp [CPUCoreCounts.from_sysctl_tr, CPUCoreCounts.from_sysctl,
      get_sysctl_value_tr_fst]
  · simp [CPUFrequency.from_sysctl_tr, CPUFrequency.from_sysctl,
      get_sysctl_value_tr_fst]

/-- C9: `PerformanceLevel::from_sysctl_id` is total over every integer id,
negative ids included; when no per-level key of that id exists it returns a
fully populated record whose numeric fields are all zero. -/
theorem C9_total_phantom_level (reg : Registry) (id : Int)
    (h : ∀ s ∈ perLevelSuffixes,
      reg.ctlNew ("hw.perflevel" ++ intDecimal id ++ s) = false) :
    PerformanceLevel.from_sysctl_id reg id =
      { id := id,
        cache := { l1_instruction_bytes := 0, l1_data_bytes := 0,
                   l2_bytes := 0, l3_bytes := 0 },
        cache_sharing := { cores_per_l2 := 0, cores_per_l3 := 0 } } := by
  have h1 := h ".l1icachesize" (by simp [perLevelSuffixes])
  have h2 := h ".l1dcachesize" (by simp [perLevelSuffixes])
  have h3 := h ".l2cachesize" (by simp [perLevelSuffixes])
  have h4 := h ".l3cachesize" (by simp [perLevelSuffixes])
  have h5 := h ".cpusperl2" (by simp [perLevelSuffixes])
  have h6 := h ".cpusperl3" (by simp [perLevelSuffixes])
  show PerformanceLevel.mk id (CacheInfo.from_sysctl_id reg id)
    (CacheSharing.from_sysctl_id reg id) = _
  rw [cacheInfo_from_sysctl_id_fields, cacheSharing_from_sysctl_id_fields,
    get_sysctl_value_of_ctlNew_false _ _ _ _ h1,
    get_sysctl_value_of_ctlNew_false _ _ _ _ h2,
    get_sysctl_value_of_ctlNew_false _ _ _ _ h3,
    get_sysctl_value_of_ctlNew_false _ _ _ _ h4,
    get_sysctl_value_of_ctlNew_false _ _ _ _ h5,
    get_sysctl_value_of_ctlNew_false _ _ _ _ h6]

/-- C9 witness: the phantom level manufactured at the negative id `-1` on
the empty registry. -/
theorem C9_total_phantom_level_witness :
    PerformanceLevel.from_sysctl_id emptyReg (-1) =
      { id := -1,
        cache := { l1_instruction_bytes := 0, l1_data_bytes := 0,
                   l2_bytes := 0, l3_bytes := 0 },
        cache_sharing := { cores_per_l2 := 0, cores_per_l3 := 0 } } :=
  C9_total_phantom_level emptyReg (-1) (fun _ _ => rfl)

/-- C10: the `Default` implementation delegates to `CPUInfo::new` — for
every registry it performs the same construction and returns a
field-for-field equal snapshot, not a zero-valued struct (on a registry
exposing `hw.physicalcpu = "42"` the default snapshot carries 42). -/
theorem C10_default_is_new (reg : Registry) (fuel : Nat) :
    CPUInfo.defaultImpl reg fuel = CPUInfo.new reg fuel ∧
    (CPUInfo.defaultImpl reg fuel).identification =
      (CPUInfo.new reg fuel).identification ∧
    (CPUInfo.defaultImpl reg fuel).core_counts =
      (CPUInfo.new reg fuel).core_counts ∧
    (CPUInfo.defaultImpl reg fuel).frequency =
      (CPUInfo.new reg fuel).frequency ∧
    (CPUInfo.defaultImpl reg fuel).performance_levels =
      (CPUInfo.new reg fuel).performance_levels ∧
    (CPUInfo.defaultImpl fortyTwoReg 1).core_counts.physical = 42 :=
  ⟨rfl, rfl, rfl, rfl, rfl, by decide⟩

end SysctlCpu
